import Mathlib

/-!
Verification of the five-bells-sender payment pipeline.

Shallow embedding of `src/paymentUtils.js`, `src/transferUtils.js` and
`src/index.js`. JavaScript values that may be `undefined` are modelled as
`Option`; a thrown `TypeError` (field access on `undefined`) is modelled by a
function returning `none`; thrown application errors (`Remote error`,
`Notary error`, `Missing required parameter`) are modelled by an explicit
error type. Machine time is modelled as milliseconds since the epoch
(a `Nat`); the rendering of an absolute time as an ISO string is kept
abstract by storing the millisecond value itself. HTTP traffic is modelled
by passing the remote responses in as explicit inputs and returning the
issued requests as an explicit trace.
-/

namespace FiveBells

/-- models JavaScript string coercion of a possibly-undefined string value:
`undefined` renders as the string "undefined" when concatenated. -/
def jsStr (o : Option String) : String := o.getD "undefined"

/-- models JavaScript truthiness of a possibly-undefined string value:
`undefined` and the empty string are falsy. -/
def jsTruthy : Option String → Bool
  | none => false
  | some s => s != ""

/-- models the JavaScript idiom `v || dflt` on a possibly-undefined string:
the default is taken when `v` is absent or empty (falsy). -/
def jsOrString (v : Option String) (dflt : String) : String :=
  if jsTruthy v then jsStr v else dflt

/-- one entry of a transfer debit or credit list. -/
structure Money where
  account : String
  amount : String
  memo : Option String
  authorized : Option Bool
  deriving Repr, DecidableEq

/-- the `additional_info` object attached to a transfer. -/
structure AddInfo where
  part_of_payment : Option String
  cases : Option (List String)
  deriving Repr, DecidableEq

/-- conditions are opaque cryptographic commitments; the pipeline never
inspects them, so they are modelled as strings. -/
abbrev Condition := String

/-- a single ledger-level escrowed transfer, mirroring the JSON object the
source mutates. Absent fields are `none`. `expires_at` holds the absolute
epoch-millisecond value that the source renders as an ISO timestamp;
`expiry_duration` is in seconds as in the quoted hops. -/
structure Transfer where
  id : Option String
  ledger : Option String
  debits : List Money
  credits : List Money
  execution_condition : Option Condition
  cancellation_condition : Option Condition
  expires_at : Option Nat
  expiry_duration : Option Nat
  additional_info : Option AddInfo
  state : Option String
  deriving Repr, DecidableEq

/-- one quoted hop of the payment path. -/
structure Payment where
  id : Option String
  source_transfers : List Transfer
  destination_transfers : List Transfer
  deriving Repr, DecidableEq

/-- uppercase hexadecimal digit for a value below 16. -/
def hexDigit (n : Nat) : Char :=
  if n < 10 then Char.ofNat (48 + n) else Char.ofNat (55 + n)

/-- the UTF-8 byte sequence of a code point. -/
def utf8Bytes (n : Nat) : List Nat :=
  if n < 128 then [n]
  else if n < 2048 then [192 + n / 64, 128 + n % 64]
  else if n < 65536 then [224 + n / 4096, 128 + n / 64 % 64, 128 + n % 64]
  else [240 + n / 262144, 128 + n / 4096 % 64, 128 + n / 64 % 64, 128 + n % 64]

/-- percent-encoding of a single byte. -/
def percentByte (b : Nat) : List Char :=
  ['%', hexDigit (b / 16), hexDigit (b % 16)]

/-- the characters `encodeURIComponent` leaves unescaped:
alphanumerics and - _ . ! ~ * apostrophe ( ). -/
def uriUnreserved (c : Char) : Bool :=
  ('A' ≤ c && c ≤ 'Z') || ('a' ≤ c && c ≤ 'z') || ('0' ≤ c && c ≤ '9') ||
  c == '-' || c == '_' || c == '.' || c == '!' || c == '~' || c == '*' ||
  c == Char.ofNat 39 || c == '(' || c == ')'

/-- encoding of one character: unreserved characters stand for themselves,
every other character contributes one percent-escape per UTF-8 byte. -/
def encChar (c : Char) : List Char :=
  if uriUnreserved c then [c] else (utf8Bytes c.toNat).flatMap percentByte

/-- models the ECMAScript `encodeURIComponent` function. -/
def encodeURIComponent (s : String) : String :=
  String.mk (s.data.flatMap encChar)

/-- characters that can occur in a uuid4 token: lowercase hex digits and
hyphens. -/
def uuidChar (c : Char) : Bool :=
  ('0' ≤ c && c ≤ '9') || ('a' ≤ c && c ≤ 'f') || c == '-'

/-- a string all of whose characters can occur in a uuid4 token. -/
def uuidShaped (s : String) : Bool := s.data.all uuidChar

/-- index-passing map over `Option`, used to embed JavaScript loops whose
body can throw; `none` models the propagated exception. -/
def mapIdxOpt (f : Nat → α → Option β) : Nat → List α → Option (List β)
  | _, [] => some []
  | i, a :: as => do
    let b ← f i a
    let bs ← mapIdxOpt f (i + 1) as
    some (b :: bs)

/-- models the statement `transfer.debits[0].account = sourceAccount`:
`none` models the TypeError thrown when the debit list is empty. -/
def setHeadAccount (account : String) : List Money → Option (List Money)
  | [] => none
  | m :: rest => some ({ m with account := account } :: rest)

/-- the body of the `payments.map` callback in `paymentsToTransfers`
(src/paymentUtils.js): takes hop `i`'s source transfer, assigns it a fresh
id and `additional_info`, then forces hop 0's first debit account to the
caller's source account and overwrites hop `i > 0`'s debit list with the
previous hop's destination-transfer debit list. `uuids k` is the value of
the k-th call of `uuid()` in the run. -/
def buildTransfer (payments : List Payment) (sourceAccount : String)
    (uuids : Nat → String) (i : Nat) (payment : Payment) : Option Transfer :=
  match payment.source_transfers.head? with
  | none => none
  | some transfer0 =>
    let transfer := { transfer0 with
      id := some (jsStr transfer0.ledger ++ "/transfers/" ++
        encodeURIComponent (uuids i)),
      additional_info := some (⟨payment.id, none⟩ : AddInfo) }
    if i = 0 then
      match setHeadAccount sourceAccount transfer.debits with
      | none => none
      | some debits => some { transfer with debits := debits }
    else
      match payments[i - 1]? with
      | none => none
      | some prev =>
        match prev.destination_transfers.head? with
        | none => none
        | some prevDest => some { transfer with debits := prevDest.debits }

/-- models `paymentsToTransfers` (src/paymentUtils.js): builds the transfer
chain from the quoted hops, then appends the final hop's destination
transfer with its own fresh id and `additional_info`. `none` models the
TypeError on an empty path or on a hop missing its `source_transfers[0]`,
`destination_transfers[0]` or first debit entry. -/
def paymentsToTransfers (payments : List Payment) (sourceAccount : String)
    (uuids : Nat → String) : Option (List Transfer) :=
  match mapIdxOpt (buildTransfer payments sourceAccount uuids) 0 payments with
  | none => none
  | some transfers =>
    match payments.getLast? with
    | none => none
    | some finalPayment =>
      match finalPayment.destination_transfers.head? with
      | none => none
      | some finalTransfer0 =>
        let finalTransfer := { finalTransfer0 with
          id := some (jsStr finalTransfer0.ledger ++ "/transfers/" ++
            encodeURIComponent (uuids payments.length)),
          additional_info := some (⟨finalPayment.id, none⟩ : AddInfo) }
        some (transfers ++ [finalTransfer])

/-- models `transferExpiresAt` (src/transferUtils.js): the absolute expiry is
`now` (epoch milliseconds) plus the transfer's declared `expiry_duration` in
seconds, scaled to milliseconds; the source renders this value as an ISO
string, kept here as the number itself. `none` models the RangeError thrown
by `Date(NaN).toISOString()` when `expiry_duration` is absent. -/
def transferExpiresAt (now : Nat) (t : Transfer) : Option Nat :=
  t.expiry_duration.map (fun d => now + d * 1000)

/-- the `params` object handed to `setupTransfers`. -/
structure SetupParams where
  isAtomic : Bool
  now : Nat
  caseID : String
  executionCondition : Condition
  cancellationCondition : Condition
  deriving Repr, DecidableEq

/-- the body of the `for` loop of `setupTransfers` (src/transferUtils.js) at
one transfer. In atomic mode the transfer receives the shared execution and
cancellation conditions and its `additional_info.cases` becomes the
one-element case list (`none` models the TypeError when `additional_info` is
absent). In non-atomic mode the transfer receives its absolute expiry and,
unless it is the final transfer, the execution condition. In both modes the
`expiry_duration` field is deleted. The source compares `transfer !==
finalTransfer` by object identity; the embedding renders this as position in
the chain (`isFinal`). -/
def setupTransfer (params : SetupParams) (isFinal : Bool) (t : Transfer) :
    Option Transfer :=
  if params.isAtomic then
    match t.additional_info with
    | none => none
    | some ai =>
      some { t with
        execution_condition := some params.executionCondition,
        cancellation_condition := some params.cancellationCondition,
        additional_info := some { ai with cases := some [params.caseID] },
        expiry_duration := none }
  else
    match transferExpiresAt params.now t with
    | none => none
    | some e =>
      some { t with
        expires_at := some e,
        execution_condition :=
          if isFinal then t.execution_condition else some params.executionCondition,
        expiry_duration := none }

/-- models `transfers[0].debits[0].authorized = true`; `none` models the
TypeError on an empty chain or an empty first debit list. -/
def authorizeFirstDebit : List Transfer → Option (List Transfer)
  | [] => none
  | t :: rest =>
    match t.debits with
    | [] => none
    | m :: ms =>
      some ({ t with debits := { m with authorized := some true } :: ms } :: rest)

/-- models `setupTransfers` (src/transferUtils.js): configures every
transfer for its mode, then authorizes the first debit of the first
transfer. -/
def setupTransfers (transfers : List Transfer) (params : SetupParams) :
    Option (List Transfer) :=
  match mapIdxOpt
      (fun i t => setupTransfer params (i == transfers.length - 1) t) 0 transfers with
  | none => none
  | some ts => authorizeFirstDebit ts

/-- one HTTP request issued by the pipeline, recorded as a trace element. -/
inductive NetCall where
  | putCase (caseID : String) (receiptCondition : Condition) (expiresAt : Nat)
      (transferIds : List String)
  | putTransfer (uri : String) (auth : Option (String × String))
  | putPayment (uri : String)
  | getTransferState (uri : String)
  | putFulfillment (uri : String) (fulfillmentType fulfillmentSignature : String)
  deriving Repr, DecidableEq

/-- the application errors the source throws, by message prefix:
`config` for "Missing required parameter", `remote` for "Remote error"
(carrying status and serialized body), `notary` for "Notary error". -/
inductive SendErr where
  | config (message : String)
  | remote (status : Nat) (body : String)
  | notary (status : Nat) (body : String)
  deriving Repr, DecidableEq

/-- a ledger response to a transfer PUT: its status, the `state` field of
its body, and the serialized body used in error messages. -/
structure TransferResponse where
  status : Nat
  state : String
  body : String
  deriving Repr, DecidableEq

/-- the request issued by `postTransfer` (src/transferUtils.js). -/
def postTransferCall (t : Transfer) (auth : Option (String × String)) : NetCall :=
  NetCall.putTransfer (jsStr t.id) auth

/-- the outcome of `postTransfer`: a Remote error for status at least 400,
otherwise the body's `state` string. -/
def postTransferResult (res : TransferResponse) : Except SendErr String :=
  if 400 ≤ res.status then Except.error (SendErr.remote res.status res.body)
  else Except.ok res.state

/-- the `for` loop of `postTransfers` over the transfers after the first:
each is submitted unauthenticated in order; on success the reported state is
stored onto the transfer, on failure the loop stops, leaving the remaining
transfers untouched. `respond i` is the response to the submission of the
transfer at chain position `i`. Returns the issued requests, the chain after
the in-place mutations, and the error if one was thrown. -/
def postTransfersLoop (respond : Nat → TransferResponse) :
    Nat → List Transfer → List NetCall × List Transfer × Option SendErr
  | _, [] => ([], [], none)
  | i, t :: rest =>
    let call := postTransferCall t none
    match postTransferResult (respond i) with
    | Except.error e => ([call], t :: rest, some e)
    | Except.ok st =>
      let r := postTransfersLoop respond (i + 1) rest
      (call :: r.1, { t with state := some st } :: r.2.1, r.2.2)

/-- models `postTransfers` (src/transferUtils.js): the first transfer is
submitted with basic authentication from the source credentials, the rest
unauthenticated in chain order. `none` models the TypeError on an empty
chain. -/
def postTransfers (transfers : List Transfer)
    (sourceUsername sourcePassword : String)
    (respond : Nat → TransferResponse) :
    Option (List NetCall × List Transfer × Option SendErr) :=
  match transfers with
  | [] => none
  | t :: rest =>
    let call := postTransferCall t (some (sourceUsername, sourcePassword))
    match postTransferResult (respond 0) with
    | Except.error e => some ([call], t :: rest, some e)
    | Except.ok st =>
      let r := postTransfersLoop respond 1 rest
      some (call :: r.1, { t with state := some st } :: r.2.1, r.2.2)

/-- a ledger response to a payment PUT: its status, the
`destination_transfers` list of its body, and the serialized body used in
error messages. -/
structure PaymentResponse where
  status : Nat
  destination_transfers : List Transfer
  body : String
  deriving Repr, DecidableEq

/-- the `for` loop of `postPayments` (src/paymentUtils.js): at hop `i` the
payment's `source_transfers` becomes `[transfers[i]]` and its
`destination_transfers` becomes `[transfers[i+1]]`, the payment is PUT to
its ledger, and slot `i+1` of the chain is replaced by the response body's
first destination transfer. Returns the submitted payment objects in order
and, unless an error was thrown, the final chain. The outer `none` models
propagation of JavaScript `undefined` where the embedding cannot follow it:
a chain shorter than the hop count or a response body with no destination
transfer. -/
def postPaymentsLoop (respond : Nat → PaymentResponse) :
    List Payment → Nat → List Transfer →
    List Payment × Option (Except SendErr (List Transfer))
  | [], _, ts => ([], some (Except.ok ts))
  | p :: rest, i, ts =>
    match ts[i]?, ts[i + 1]? with
    | some src, some dst =>
      let p := { p with source_transfers := [src], destination_transfers := [dst] }
      let res := respond i
      if 400 ≤ res.status then
        ([p], some (Except.error (SendErr.remote res.status res.body)))
      else
        match res.destination_transfers.head? with
        | some newDst =>
          let r := postPaymentsLoop respond rest (i + 1) (ts.set (i + 1) newDst)
          (p :: r.1, r.2)
        | none => ([p], none)
    | _, _ => ([], none)

/-- models `postPayments` (src/paymentUtils.js): drives the hops in order
over a copy of the transfer chain. -/
def postPayments (payments : List Payment) (transfers : List Transfer)
    (respond : Nat → PaymentResponse) :
    List Payment × Option (Except SendErr (List Transfer)) :=
  postPaymentsLoop respond payments 0 transfers

/-- a notary response to a case PUT. -/
structure CaseResponse where
  statusCode : Nat
  body : String
  deriving Repr, DecidableEq

/-- models `setupCase` (src/index.js): generates the case id under the
notary's namespace from the next uuid token, PUTs the case record, and
returns the case id, or a Notary error for status at least 400. -/
def setupCase (notary : String) (receiptCondition : Condition)
    (transfers : List Transfer) (expiresAt : Nat) (uuidToken : String)
    (res : CaseResponse) : NetCall × Except SendErr String :=
  let caseID := notary ++ "/cases/" ++ encodeURIComponent uuidToken
  (NetCall.putCase caseID receiptCondition expiresAt
      (transfers.map (fun t => jsStr t.id)),
   if 400 ≤ res.statusCode then
     Except.error (SendErr.notary res.statusCode res.body)
   else Except.ok caseID)

/-- a ledger response to the final-transfer state GET: its status, the
`type` and `signature` fields of its body, and the serialized body. -/
structure StateResponse where
  statusCode : Nat
  type : String
  signature : String
  body : String
  deriving Repr, DecidableEq

/-- a notary response to the fulfillment PUT. -/
structure FulfillResponse where
  statusCode : Nat
  body : String
  deriving Repr, DecidableEq

/-- models the guard `notaryFulfillmentRes >= 400` in
`postFulfillmentToNotary` (src/index.js line 226): the source compares the
response object itself, not its `statusCode`. A JavaScript relational
comparison coerces the object via ToPrimitive to the string
"[object Object]", whose numeric value is NaN, and every comparison with
NaN is false — so this guard never fires, whatever the status is. -/
def jsObjectGeNat (_res : FulfillResponse) (_n : Nat) : Bool := false

/-- models `postFulfillmentToNotary` (src/index.js): GETs the final
transfer's state, then PUTs the `type` and `signature` of that state as the
case's fulfillment. The first guard checks the GET's `statusCode`; the
second guard is the source's comparison of the PUT response object itself
(see `jsObjectGeNat`). -/
def postFulfillmentToNotary (finalTransfer : Transfer) (caseID : String)
    (stateRes : StateResponse) (fulfillRes : FulfillResponse) :
    List NetCall × Option SendErr :=
  let c1 := NetCall.getTransferState (jsStr finalTransfer.id ++ "/state")
  if 400 ≤ stateRes.statusCode then
    ([c1], some (SendErr.remote stateRes.statusCode stateRes.body))
  else
    let c2 := NetCall.putFulfillment (caseID ++ "/fulfillment")
      stateRes.type stateRes.signature
    if jsObjectGeNat fulfillRes 400 then
      ([c1, c2], some (SendErr.remote fulfillRes.statusCode fulfillRes.body))
    else ([c1, c2], none)

/-- the caller-facing parameter object of the entry points. -/
structure Params where
  sourceLedger : String
  sourceAccount : Option String
  sourceUsername : String
  sourcePassword : String
  destinationLedger : String
  destinationAccount : Option String
  destinationUsername : String
  destinationAmount : String
  destinationMemo : Option String
  notary : Option String
  notaryPublicKey : Option String
  receiptCondition : Option Condition
  deriving Repr, DecidableEq

/-- models `ledgerToAccount` (src/index.js). -/
def ledgerToAccount (ledger username : String) : String :=
  ledger ++ "/accounts/" ++ encodeURIComponent username

/-- models `setupAccountParams` (src/index.js): each account parameter is
`account || ledgerToAccount(ledger, username)` — the derived value is taken
when the supplied one is falsy (absent or empty). -/
def setupAccountParams (p : Params) : Params :=
  { p with
    sourceAccount := some (jsOrString p.sourceAccount
      (ledgerToAccount p.sourceLedger p.sourceUsername)),
    destinationAccount := some (jsOrString p.destinationAccount
      (ledgerToAccount p.destinationLedger p.destinationUsername)) }

/-- Modelled from the spec: `conditionUtils.js` is not among the provided
source files. The spec's Condition Provider interface derives an execution
condition from the receipt condition, case id, notary and notary public
key; conditions are opaque values, modelled as strings recording their
inputs. -/
def getExecutionCondition (receiptCondition : Condition) (caseID : Option String)
    (notary : Option String) (notaryPublicKey : Option String) : Condition :=
  "exec:" ++ receiptCondition ++ ":" ++ jsStr caseID ++ ":" ++ jsStr notary ++
    ":" ++ jsStr notaryPublicKey

/-- Modelled from the spec: `conditionUtils.js` is not among the provided
source files. The spec's Condition Provider interface derives a
cancellation condition (atomic mode only) from the same inputs as the
execution condition. -/
def getCancellationCondition (receiptCondition : Condition) (caseID : Option String)
    (notary : Option String) (notaryPublicKey : Option String) : Condition :=
  "cancel:" ++ receiptCondition ++ ":" ++ jsStr caseID ++ ":" ++ jsStr notary ++
    ":" ++ jsStr notaryPublicKey

/-- models `transfers[transfers.length - 1].credits[0].memo =
params.destinationMemo` guarded by the memo's truthiness; `none` models the
TypeError on an empty chain or an empty final credit list. -/
def setFinalMemo (memo : Option String) (transfers : List Transfer) :
    Option (List Transfer) :=
  if jsTruthy memo then
    match transfers.getLast? with
    | none => none
    | some last =>
      match last.credits with
      | [] => none
      | m :: ms =>
        some (transfers.dropLast ++ [{ last with credits := { m with memo := memo } :: ms }])
  else some transfers

/-- the environment of one `executePayment` run: the uuid stream (in call
order), the clock, the external Condition Provider's receipt condition, and
every remote response the run may consume. -/
structure ExecEnv where
  uuids : Nat → String
  nowMs : Nat
  getReceiptCondition : Transfer → String → Condition
  caseResponse : CaseResponse
  transferResponses : Nat → TransferResponse
  paymentResponses : Nat → PaymentResponse
  stateResponse : StateResponse
  fulfillResponse : FulfillResponse

/-- models `executePayment` (src/index.js): normalizes the account
parameters, rejects atomic mode without a notary public key before any
network traffic, builds the chain, configures escrow (creating the notary
case first in atomic mode), proposes every transfer, drives the hops, and
in atomic mode with a generated receipt condition submits the fulfillment.
Returns the network trace together with the result; `none` models a
JavaScript TypeError. -/
def executePayment (subpayments : List Payment) (params0 : Params)
    (env : ExecEnv) : Option (List NetCall × Except SendErr (List Payment)) := do
  let params := setupAccountParams params0
  let isAtomic := jsTruthy params.notary
  if isAtomic && !(jsTruthy params.notaryPublicKey) then
    some ([], Except.error (SendErr.config "Missing required parameter: notaryPublicKey"))
  else do
    let transfers ← paymentsToTransfers subpayments (jsStr params.sourceAccount) env.uuids
    let transfers ← setFinalMemo params.destinationMemo transfers
    let finalTransfer ← transfers.getLast?
    let receiptConditionState := if isAtomic then "prepared" else "executed"
    let receiptCondition :=
      if jsTruthy params.receiptCondition then jsStr params.receiptCondition
      else env.getReceiptCondition finalTransfer receiptConditionState
    let now := env.nowMs
    let caseStep ←
      if isAtomic then do
        let firstTransfer ← transfers.head?
        let expiresAt ← transferExpiresAt now firstTransfer
        let sc := setupCase (jsStr params.notary) receiptCondition transfers
          expiresAt (env.uuids (subpayments.length + 1)) env.caseResponse
        some ([sc.1], sc.2.map some)
      else some (([] : List NetCall), Except.ok (none : Option String))
    match caseStep.2 with
    | Except.error e => some (caseStep.1, Except.error e)
    | Except.ok caseID => do
      let executionCondition := getExecutionCondition receiptCondition caseID
        params.notary params.notaryPublicKey
      let cancellationCondition :=
        if isAtomic then
          some (getCancellationCondition receiptCondition caseID
            params.notary params.notaryPublicKey)
        else none
      let transfers ← setupTransfers transfers {
        isAtomic := isAtomic,
        now := now,
        caseID := jsStr caseID,
        executionCondition := executionCondition,
        cancellationCondition := jsStr cancellationCondition }
      let pt ← postTransfers transfers params.sourceUsername
        params.sourcePassword env.transferResponses
      match pt.2.2 with
      | some e => some (caseStep.1 ++ pt.1, Except.error e)
      | none =>
        let pp := postPayments subpayments pt.2.1 env.paymentResponses
        let payCalls := pp.1.map (fun p => NetCall.putPayment (jsStr p.id))
        match pp.2 with
        | none => none
        | some (Except.error e) =>
          some (caseStep.1 ++ pt.1 ++ payCalls, Except.error e)
        | some (Except.ok transfersFinal) =>
          if isAtomic && !(jsTruthy params.receiptCondition) then do
            let lastTransfer ← transfersFinal.getLast?
            let pf := postFulfillmentToNotary lastTransfer (jsStr caseID)
              env.stateResponse env.fulfillResponse
            match pf.2 with
            | some e => some (caseStep.1 ++ pt.1 ++ payCalls ++ pf.1, Except.error e)
            | none => some (caseStep.1 ++ pt.1 ++ payCalls ++ pf.1, Except.ok pp.1)
          else some (caseStep.1 ++ pt.1 ++ payCalls, Except.ok pp.1)

/-- the transfer with every field absent, used as a `getD` default. -/
def emptyTransfer : Transfer :=
  { id := none, ledger := none, debits := [], credits := [],
    execution_condition := none, cancellation_condition := none,
    expires_at := none, expiry_duration := none, additional_info := none,
    state := none }

/-- the payment with every field absent, used as a `getD` default. -/
def emptyPayment : Payment :=
  { id := none, source_transfers := [], destination_transfers := [] }

/-- the chain with the ledger-reported state of response `i` stored onto the
transfer at position `i`, as `postTransfers` leaves it on success. -/
def stampStates (respond : Nat → TransferResponse) : Nat → List Transfer → List Transfer
  | _, [] => []
  | i, t :: rest =>
    { t with state := some (respond i).state } :: stampStates respond (i + 1) rest

/-- the proposal requests for a chain in order: the first with basic
authentication, the rest unauthenticated. -/
def proposalCalls (sourceUsername sourcePassword : String) :
    List Transfer → List NetCall
  | [] => []
  | t :: rest =>
    postTransferCall t (some (sourceUsername, sourcePassword)) ::
      rest.map (fun t2 => postTransferCall t2 none)

/-- the first destination transfer of payment response `i`. -/
def respDest (respond : Nat → PaymentResponse) (i : Nat) : Transfer :=
  ((respond i).destination_transfers.head?).getD emptyTransfer

/-- the payment objects submitted by the payment driver from hop `i` on,
starting from chain state `ts`: each hop attaches the current chain entry
at its index as source and the entry one past it as destination, and the
chain entry past it is then replaced by the response's first destination
transfer. -/
def submittedFrom (respond : Nat → PaymentResponse) :
    List Payment → Nat → List Transfer → List Payment
  | [], _, _ => []
  | p :: rest, i, ts =>
    { p with
        source_transfers := [ts.getD i emptyTransfer],
        destination_transfers := [ts.getD (i + 1) emptyTransfer] } ::
      submittedFrom respond rest (i + 1) (ts.set (i + 1) (respDest respond i))

/-- the chain after the driver has settled `n` hops starting at hop `i`:
each settled hop's successor slot holds the ledger-returned destination
transfer. -/
def settledFrom (respond : Nat → PaymentResponse) :
    Nat → List Transfer → Nat → List Transfer
  | _, ts, 0 => ts
  | i, ts, n + 1 =>
    settledFrom respond (i + 1) (ts.set (i + 1) (respDest respond i)) n

/-! ### Concrete sample data for evaluating the embedding -/

/-- a concrete uuid stream: token k is the string of k+1 letters a, so all
tokens are distinct and uuid-shaped. -/
def cexUuids : Nat → String := fun n => String.mk (List.replicate (n + 1) 'a')

/-- a quoted source transfer for a one-hop path: alice pays the connector on
ledger 1. -/
def cexSourceTransfer : Transfer :=
  { id := none, ledger := some "http://ledger1",
    debits := [⟨"alice", "10", none, none⟩],
    credits := [⟨"connie", "10", none, none⟩],
    execution_condition := none, cancellation_condition := none,
    expires_at := none, expiry_duration := some 5,
    additional_info := none, state := none }

/-- a quoted destination transfer whose debit and credit sides name
different accounts: the connector pays bob on ledger 2. -/
def cexDestTransfer : Transfer :=
  { id := none, ledger := some "http://ledger2",
    debits := [⟨"connie2", "9", none, none⟩],
    credits := [⟨"bob", "9", none, none⟩],
    execution_condition := none, cancellation_condition := none,
    expires_at := none, expiry_duration := some 4,
    additional_info := none, state := none }

/-- a one-hop quoted path. -/
def cexPayments : List Payment :=
  [{ id := some "http://pay0", source_transfers := [cexSourceTransfer],
     destination_transfers := [cexDestTransfer] }]

/-- the one-hop path with the source transfer's ledger uri missing. -/
def cex8Payments : List Payment :=
  [{ id := some "http://pay8",
     source_transfers := [{ cexSourceTransfer with ledger := none }],
     destination_transfers := [cexDestTransfer] }]

/-- an atomic-mode configuration for the escrow configurator. -/
def cexSetupParamsAtomic : SetupParams :=
  { isAtomic := true, now := 1000, caseID := "http://notary/cases/c1",
    executionCondition := "ec", cancellationCondition := "cc" }

/-- a non-atomic-mode configuration for the escrow configurator. -/
def cexSetupParamsTimed : SetupParams :=
  { isAtomic := false, now := 1000, caseID := "",
    executionCondition := "ec", cancellationCondition := "" }

/-- a two-transfer chain as the builder would hand it to the configurator:
`additional_info` present, no conditions, no expiry set yet. -/
def cexBuiltChain : List Transfer :=
  [{ cexSourceTransfer with additional_info := some ⟨some "http://pay0", none⟩ },
   { cexDestTransfer with additional_info := some ⟨some "http://pay0", none⟩ }]

/-- a one-transfer chain that already carries an `expires_at` value. -/
def cexPreExpiredChain : List Transfer :=
  [{ cexSourceTransfer with
      expires_at := some 123,
      additional_info := some ⟨some "http://pay0", none⟩ }]

/-- a one-transfer chain whose only (hence final) transfer already carries
an execution condition. -/
def cexPreCondChain : List Transfer :=
  [{ cexSourceTransfer with execution_condition := some "ec" }]

/-- a two-transfer chain with ids, as handed to the transfer proposer. -/
def cexProposalChain : List Transfer :=
  [{ cexSourceTransfer with id := some "http://ledger1/transfers/aa" },
   { cexDestTransfer with id := some "http://ledger2/transfers/bb" }]

/-- a ledger response stream answering every transfer proposal with a 300
status — not an error for the source, which only checks status >= 400. -/
def cex6Respond : Nat → TransferResponse :=
  fun _ => { status := 300, state := "proposed", body := "redirect-body" }

/-- a ledger response stream answering every transfer proposal with 201. -/
def cexOkTransferRespond : Nat → TransferResponse :=
  fun _ => { status := 201, state := "proposed", body := "ok-body" }

/-- a two-hop quoted path for the payment driver. -/
def cex7Payments : List Payment :=
  [{ id := some "http://pay0", source_transfers := [cexSourceTransfer],
     destination_transfers := [cexDestTransfer] },
   { id := some "http://pay1", source_transfers := [cexDestTransfer],
     destination_transfers := [cexDestTransfer] }]

/-- a three-transfer chain for the two-hop path. -/
def cex7Chain : List Transfer :=
  [{ cexSourceTransfer with id := some "http://ledger1/transfers/aa" },
   { cexDestTransfer with id := some "http://ledger2/transfers/bb" },
   { cexDestTransfer with id := some "http://ledger3/transfers/cc" }]

/-- a ledger response stream accepting every payment and returning an
executed destination transfer. -/
def cex7Respond : Nat → PaymentResponse :=
  fun _ =>
    { status := 200,
      destination_transfers := [{ cexDestTransfer with state := some "executed" }],
      body := "payment-ok" }

/-- the final transfer of the proposal chain, with its id set. -/
def cexFinalTransfer : Transfer :=
  { cexDestTransfer with id := some "http://ledger2/transfers/bb" }

/-- entry parameters selecting atomic mode but missing the notary public
key. -/
def cex9Params : Params :=
  { sourceLedger := "http://ledger1", sourceAccount := none,
    sourceUsername := "alice", sourcePassword := "pw",
    destinationLedger := "http://ledger2", destinationAccount := none,
    destinationUsername := "bob", destinationAmount := "9",
    destinationMemo := none, notary := some "http://notary",
    notaryPublicKey := none, receiptCondition := none }

/-- entry parameters whose caller-supplied source account is the empty
string — falsy in JavaScript. -/
def cex10EmptyParams : Params :=
  { cex9Params with sourceAccount := some "", notary := none }

/-- entry parameters with a non-empty caller-supplied source account. -/
def cex10SuppliedParams : Params :=
  { cex9Params with
      sourceAccount := some "http://ledger9/accounts/zed", notary := none }

/-- a fully benign environment for `executePayment`. -/
def cexEnv : ExecEnv :=
  { uuids := cexUuids, nowMs := 1000,
    getReceiptCondition := fun _ _ => "rc",
    caseResponse := { statusCode := 201, body := "case-ok" },
    transferResponses := cexOkTransferRespond,
    paymentResponses := cex7Respond,
    stateResponse := { statusCode := 200, type := "ed25519",
                       signature := "sig", body := "state-ok" },
    fulfillResponse := { statusCode := 201, body := "fulfill-ok" } }

/-! ### Generic lemmas about the embedding combinators -/

theorem mapIdxOpt_length {α β : Type _} {f : Nat → α → Option β} :
    ∀ {i : Nat} {as : List α} {bs : List β},
      mapIdxOpt f i as = some bs → bs.length = as.length := by
  intro i as
  induction as generalizing i with
  | nil => intro bs h; simp [mapIdxOpt] at h; simp [← h]
  | cons a as ih =>
    intro bs h
    simp only [mapIdxOpt, Option.bind_eq_bind, Option.bind_eq_some] at h
    obtain ⟨b, _, bs2, hrec, hcons⟩ := h
    cases hcons
    simp [ih hrec]

theorem mapIdxOpt_getElem {α β : Type _} {f : Nat → α → Option β} :
    ∀ {i : Nat} {as : List α} {bs : List β},
      mapIdxOpt f i as = some bs → ∀ j, j < as.length →
        ∃ a b, as[j]? = some a ∧ bs[j]? = some b ∧ f (i + j) a = some b := by
  intro i as
  induction as generalizing i with
  | nil => intro bs _ j hj; simp at hj
  | cons a as ih =>
    intro bs h j hj
    simp only [mapIdxOpt, Option.bind_eq_bind, Option.bind_eq_some] at h
    obtain ⟨b, hb, bs2, hrec, hcons⟩ := h
    cases hcons
    cases j with
    | zero => exact ⟨a, b, by simp, by simp, hb⟩
    | succ j =>
      have hj2 : j < as.length := Nat.lt_of_succ_lt_succ hj
      obtain ⟨a2, b2, ha2, hb2, hf2⟩ := ih hrec j hj2
      refine ⟨a2, b2, ?_, ?_, ?_⟩
      · simpa using ha2
      · simpa using hb2
      · have : i + 1 + j = i + (j + 1) := by omega
        rw [← this]; exact hf2

/-! ### Representation lemmas for the chain builder -/

theorem paymentsToTransfers_eq {payments : List Payment} {sa : String}
    {uuids : Nat → String} {ts : List Transfer}
    (h : paymentsToTransfers payments sa uuids = some ts) :
    ∃ transfers finalPayment finalTransfer,
      mapIdxOpt (buildTransfer payments sa uuids) 0 payments = some transfers ∧
      payments.getLast? = some finalPayment ∧
      finalPayment.destination_transfers.head? = some finalTransfer ∧
      ts = transfers ++ [{ finalTransfer with
        id := some (jsStr finalTransfer.ledger ++ "/transfers/" ++
          encodeURIComponent (uuids payments.length)),
        additional_info := some ⟨finalPayment.id, none⟩ }] := by
  unfold paymentsToTransfers at h
  split at h
  · exact absurd h (by simp)
  case _ transfers hm =>
    split at h
    · exact absurd h (by simp)
    case _ fp hfp =>
      split at h
      · exact absurd h (by simp)
      case _ ft hft =>
        exact ⟨transfers, fp, ft, hm, hfp, hft, (Option.some.inj h).symm⟩

theorem buildTransfer_zero {payments : List Payment} {sa : String}
    {uuids : Nat → String} {p : Payment} {t : Transfer}
    (h : buildTransfer payments sa uuids 0 p = some t) :
    ∃ t0 m ms, p.source_transfers.head? = some t0 ∧ t0.debits = m :: ms ∧
      t = { t0 with
        id := some (jsStr t0.ledger ++ "/transfers/" ++ encodeURIComponent (uuids 0)),
        additional_info := some ⟨p.id, none⟩,
        debits := { m with account := sa } :: ms } := by
  unfold buildTransfer at h
  split at h
  · exact absurd h (by simp)
  case _ t0 ht0 =>
    rw [if_pos rfl] at h
    split at h
    · exact absurd h (by simp)
    case _ debits hd =>
      cases hdeb : t0.debits with
      | nil => rw [hdeb] at hd; exact absurd hd (by simp [setHeadAccount])
      | cons m ms =>
        rw [hdeb] at hd
        simp only [setHeadAccount, Option.some.injEq] at hd
        refine ⟨t0, m, ms, ht0, hdeb, ?_⟩
        rw [← Option.some.inj h, ← hd]

theorem buildTransfer_succ {payments : List Payment} {sa : String}
    {uuids : Nat → String} {p : Payment} {t : Transfer} {i : Nat}
    (hi : i ≠ 0) (h : buildTransfer payments sa uuids i p = some t) :
    ∃ t0 prev prevDest, p.source_transfers.head? = some t0 ∧
      payments[i - 1]? = some prev ∧
      prev.destination_transfers.head? = some prevDest ∧
      t = { t0 with
        id := some (jsStr t0.ledger ++ "/transfers/" ++ encodeURIComponent (uuids i)),
        additional_info := some ⟨p.id, none⟩,
        debits := prevDest.debits } := by
  unfold buildTransfer at h
  split at h
  · exact absurd h (by simp)
  case _ t0 ht0 =>
    rw [if_neg hi] at h
    split at h
    · exact absurd h (by simp)
    case _ prev hprev =>
      split at h
      · exact absurd h (by simp)
      case _ prevDest hpd =>
        exact ⟨t0, prev, prevDest, ht0, hprev, hpd, (Option.some.inj h).symm⟩

theorem buildTransfer_id {payments : List Payment} {sa : String}
    {uuids : Nat → String} {p : Payment} {t : Transfer} {i : Nat}
    (h : buildTransfer payments sa uuids i p = some t) :
    t.id = some (jsStr t.ledger ++ "/transfers/" ++ encodeURIComponent (uuids i)) := by
  by_cases hi : i = 0
  · subst hi
    obtain ⟨t0, m, ms, -, -, rfl⟩ := buildTransfer_zero h
    rfl
  · obtain ⟨t0, prev, pd, -, -, -, rfl⟩ := buildTransfer_succ hi h
    rfl

theorem paymentsToTransfers_length {payments : List Payment} {sa : String}
    {uuids : Nat → String} {ts : List Transfer}
    (h : paymentsToTransfers payments sa uuids = some ts) :
    ts.length = payments.length + 1 := by
  obtain ⟨transfers, fp, ft, hm, -, -, rfl⟩ := paymentsToTransfers_eq h
  simp [mapIdxOpt_length hm]

theorem paymentsToTransfers_id {payments : List Payment} {sa : String}
    {uuids : Nat → String} {ts : List Transfer}
    (h : paymentsToTransfers payments sa uuids = some ts) :
    ∀ j tj, ts[j]? = some tj →
      tj.id = some (jsStr tj.ledger ++ "/transfers/" ++
        encodeURIComponent (uuids j)) := by
  obtain ⟨transfers, fp, ft, hm, hfp, hft, rfl⟩ := paymentsToTransfers_eq h
  have hlen := mapIdxOpt_length hm
  intro j tj hj
  by_cases hjlt : j < transfers.length
  · rw [List.getElem?_append, if_pos hjlt] at hj
    obtain ⟨a, b, ha, hb, hf⟩ := mapIdxOpt_getElem hm j (by omega)
    rw [hb] at hj
    obtain rfl := Option.some.inj hj
    rw [Nat.zero_add] at hf
    exact buildTransfer_id hf
  · have hjlen : j < transfers.length + 1 := by
      have h2 := (List.getElem?_eq_some_iff.mp hj).1
      simpa using h2
    have hjeq : j = transfers.length := by omega
    subst hjeq
    rw [List.getElem?_append_right (Nat.le_refl _)] at hj
    simp only [Nat.sub_self, List.getElem?_cons_zero, Option.some.injEq] at hj
    rw [← hj, hlen]

theorem paymentsToTransfers_adjacent {payments : List Payment} {sa : String}
    {uuids : Nat → String} {ts : List Transfer}
    (h : paymentsToTransfers payments sa uuids = some ts) :
    ∀ i, i < payments.length → ∃ p pd ti1, payments[i]? = some p ∧
      p.destination_transfers.head? = some pd ∧ ts[i + 1]? = some ti1 ∧
      ti1.debits = pd.debits := by
  obtain ⟨transfers, fp, ft, hm, hfp, hft, rfl⟩ := paymentsToTransfers_eq h
  have hlen := mapIdxOpt_length hm
  intro i hi
  by_cases hi1 : i + 1 < payments.length
  · obtain ⟨a, b, ha, hb, hf⟩ := mapIdxOpt_getElem hm (i + 1) hi1
    rw [Nat.zero_add] at hf
    obtain ⟨t0, prev, prevDest, -, hprev, hpd, heq⟩ :=
      buildTransfer_succ (Nat.succ_ne_zero i) hf
    have hprev2 : payments[i]? = some prev := hprev
    refine ⟨prev, prevDest, b, hprev2, hpd, ?_, ?_⟩
    · rw [List.getElem?_append, if_pos (by omega)]
      exact hb
    · rw [heq]
  · have hieq : i + 1 = payments.length := by omega
    have hival : i = payments.length - 1 := by omega
    refine ⟨fp, ft, { ft with
        id := some (jsStr ft.ledger ++ "/transfers/" ++
          encodeURIComponent (uuids payments.length)),
        additional_info := some (⟨fp.id, none⟩ : AddInfo) }, ?_, hft, ?_, rfl⟩
    · rw [← hfp, List.getLast?_eq_getElem? payments, hival]
    · rw [List.getElem?_append_right (by omega), hlen, hieq]
      simp

/-! ### Encoding lemmas: uuid tokens pass through the URI encoder intact -/

theorem uuidChar_unreserved {c : Char} (h : uuidChar c = true) :
    uriUnreserved c = true := by
  unfold uuidChar at h
  unfold uriUnreserved
  simp only [Bool.or_eq_true, Bool.and_eq_true, decide_eq_true_eq, beq_iff_eq] at h ⊢
  rcases h with (⟨h1, h2⟩ | ⟨h1, h2⟩) | h3
  · tauto
  · have h2z : c ≤ 'z' := le_trans h2 (by decide)
    tauto
  · tauto

theorem uuidChar_ne_slash {c : Char} (h : uuidChar c = true) : c ≠ '/' := by
  rintro rfl
  exact absurd h (by decide)

theorem encChar_uuid {c : Char} (h : uuidChar c = true) : encChar c = [c] := by
  unfold encChar
  rw [if_pos (uuidChar_unreserved h)]

theorem flatMap_encChar_id : ∀ {cs : List Char},
    (∀ c ∈ cs, uuidChar c = true) → cs.flatMap encChar = cs := by
  intro cs
  induction cs with
  | nil => intro _; rfl
  | cons c cs ih =>
    intro h
    rw [List.flatMap_cons, encChar_uuid (h c (List.mem_cons_self c cs)),
      ih (fun x hx => h x (List.mem_cons_of_mem c hx))]
    rfl

theorem enc_uuidShaped {s : String} (h : uuidShaped s = true) :
    encodeURIComponent s = s := by
  unfold encodeURIComponent
  rw [flatMap_encChar_id (List.all_eq_true.mp h)]

theorem append_slash_cancel : ∀ (a : List Char) {b : List Char} (c : List Char)
    {d : List Char}, (∀ x ∈ b, x ≠ '/') → (∀ x ∈ d, x ≠ '/') →
    a ++ '/' :: b = c ++ '/' :: d → b = d := by
  intro a
  induction a with
  | nil =>
    intro b c d hb hd h
    cases c with
    | nil => simpa using h
    | cons y c2 =>
      simp only [List.nil_append, List.cons_append, List.cons.injEq] at h
      exact absurd rfl (hb '/' (by
        rw [h.2]; exact List.mem_append_right _ (List.mem_cons_self _ _)))
  | cons x a2 ih =>
    intro b c d hb hd h
    cases c with
    | nil =>
      simp only [List.cons_append, List.nil_append, List.cons.injEq] at h
      exact absurd rfl (hd '/' (by
        rw [← h.2]; exact List.mem_append_right _ (List.mem_cons_self _ _)))
    | cons y c2 =>
      simp only [List.cons_append, List.cons.injEq] at h
      exact ih c2 hb hd h.2

theorem id_suffix_inj {l1 l2 u1 u2 : String}
    (hu1 : ∀ x ∈ u1.data, x ≠ '/') (hu2 : ∀ x ∈ u2.data, x ≠ '/')
    (h : l1 ++ "/transfers/" ++ u1 = l2 ++ "/transfers/" ++ u2) : u1 = u2 := by
  have hd : (l1 ++ "/transfers/" ++ u1).data = (l2 ++ "/transfers/" ++ u2).data := by
    rw [h]
  simp only [String.data_append] at hd
  have hgrp : ∀ (x y : List Char),
      x ++ ['/', 't', 'r', 'a', 'n', 's', 'f', 'e', 'r', 's', '/'] ++ y =
      (x ++ ['/', 't', 'r', 'a', 'n', 's', 'f', 'e', 'r', 's']) ++ '/' :: y := by
    intro x y
    simp
  rw [hgrp, hgrp] at hd
  exact String.ext (append_slash_cancel _ _ hu1 hu2 hd)

theorem uuidShaped_slashfree {s : String} (h : uuidShaped s = true) :
    ∀ x ∈ s.data, x ≠ '/' :=
  fun x hx => uuidChar_ne_slash (List.all_eq_true.mp h x hx)

theorem paymentsToTransfers_unique_ids {payments : List Payment} {sa : String}
    {uuids : Nat → String} {ts : List Transfer}
    (h : paymentsToTransfers payments sa uuids = some ts)
    (hdist : ∀ j k, j ≤ payments.length → k ≤ payments.length → j ≠ k →
      uuids j ≠ uuids k)
    (hshape : ∀ j, j ≤ payments.length → uuidShaped (uuids j) = true) :
    ∀ (j k : Nat) (tj tk : Transfer), ts[j]? = some tj → ts[k]? = some tk →
      j ≠ k → tj.id ≠ tk.id := by
  intro j k tj tk hj hk hjk hid
  have hlen := paymentsToTransfers_length h
  have hjb : j < ts.length := (List.getElem?_eq_some_iff.mp hj).1
  have hkb : k < ts.length := (List.getElem?_eq_some_iff.mp hk).1
  have hj2 : j ≤ payments.length := by omega
  have hk2 : k ≤ payments.length := by omega
  have hidj := paymentsToTransfers_id h j tj hj
  have hidk := paymentsToTransfers_id h k tk hk
  rw [enc_uuidShaped (hshape j hj2)] at hidj
  rw [enc_uuidShaped (hshape k hk2)] at hidk
  rw [hidj, hidk] at hid
  have hu := id_suffix_inj (uuidShaped_slashfree (hshape j hj2))
    (uuidShaped_slashfree (hshape k hk2)) (Option.some.inj hid)
  exact hdist j k hj2 hk2 hjk hu

theorem cexUuids_inj : ∀ j k : Nat, j ≠ k → cexUuids j ≠ cexUuids k := by
  intro j k hne heq
  have hlen : (cexUuids j).data.length = (cexUuids k).data.length := by rw [heq]
  unfold cexUuids at hlen
  simp only [List.length_replicate] at hlen
  omega

theorem cexUuids_shaped : ∀ j : Nat, uuidShaped (cexUuids j) = true := by
  intro j
  unfold uuidShaped cexUuids
  rw [List.all_eq_true]
  intro x hx
  have hxa := List.eq_of_mem_replicate hx
  subst hxa
  decide

/-! ### Claim C1: adjacency of the built chain -/

/-- C1 counterexample: on a concrete one-hop path whose destination transfer
debits the connector and credits bob, the chain is built, and transfer 1's
debit list is the destination transfer's debit list — not its credit list as
the claim states. -/
theorem C1_counterexample :
    ((paymentsToTransfers cexPayments "http://ledger1/accounts/ali" cexUuids).bind
        (fun ts => ts[1]?)).map Transfer.debits =
      some [⟨"connie2", "9", none, none⟩] ∧
    (cexPayments[0]?.bind (fun p => p.destination_transfers.head?)).map
        Transfer.credits = some [⟨"bob", "9", none, none⟩] ∧
    (some [(⟨"connie2", "9", none, none⟩ : Money)] ≠
      some [(⟨"bob", "9", none, none⟩ : Money)]) := by
  decide

/-- C1 (amended): for every quoted path and source account, whenever
`paymentsToTransfers` returns a chain, transfer i+1's debit list equals the
DEBIT list of hop i's destination transfer, for every hop index i; for the
last hop the chain's final element is that destination transfer itself. -/
theorem C1_adjacency_debits {payments : List Payment} {sourceAccount : String}
    {uuids : Nat → String} {ts : List Transfer}
    (h : paymentsToTransfers payments sourceAccount uuids = some ts) :
    ∀ i, i < payments.length → ∃ (p : Payment) (pd ti1 : Transfer),
      payments[i]? = some p ∧ p.destination_transfers.head? = some pd ∧
      ts[i + 1]? = some ti1 ∧ ti1.debits = pd.debits :=
  paymentsToTransfers_adjacent h

theorem C1_adjacency_debits_witness :
    ∃ (p : Payment) (pd ti1 : Transfer),
      cexPayments[0]? = some p ∧ p.destination_transfers.head? = some pd ∧
      ((paymentsToTransfers cexPayments "http://ledger1/accounts/ali" cexUuids).getD
        [])[0 + 1]? = some ti1 ∧ ti1.debits = pd.debits :=
  C1_adjacency_debits
    (by decide : paymentsToTransfers cexPayments "http://ledger1/accounts/ali" cexUuids =
      some ((paymentsToTransfers cexPayments "http://ledger1/accounts/ali" cexUuids).getD []))
    0 (by decide)

/-! ### Claim C5: chain length, id format, id uniqueness -/

/-- C5: for every quoted path of at least one hop, a successful build yields
exactly hops+1 transfers; every transfer whose ledger uri is present gets an
id of the form ledger ++ "/transfers/" ++ encoded token (token j for chain
position j); and if the uuid stream is injective on the tokens drawn (and
the tokens are uuid-shaped, as uuid4 tokens are), no two transfers of the
run share an id. -/
theorem C5_length_id_unique {payments : List Payment} {sourceAccount : String}
    {uuids : Nat → String} {ts : List Transfer}
    (h : paymentsToTransfers payments sourceAccount uuids = some ts)
    (_hn : 1 ≤ payments.length)
    (hdist : ∀ j k, j ≤ payments.length → k ≤ payments.length → j ≠ k →
      uuids j ≠ uuids k)
    (hshape : ∀ j, j ≤ payments.length → uuidShaped (uuids j) = true) :
    ts.length = payments.length + 1 ∧
    (∀ (j : Nat) (tj : Transfer) (L : String), ts[j]? = some tj →
      tj.ledger = some L →
      tj.id = some (L ++ "/transfers/" ++ encodeURIComponent (uuids j))) ∧
    (∀ (j k : Nat) (tj tk : Transfer), ts[j]? = some tj → ts[k]? = some tk →
      j ≠ k → tj.id ≠ tk.id) := by
  refine ⟨paymentsToTransfers_length h, ?_,
    paymentsToTransfers_unique_ids h hdist hshape⟩
  intro j tj L hj hL
  have hid := paymentsToTransfers_id h j tj hj
  rw [hL] at hid
  exact hid

theorem C5_length_id_unique_witness :
    ((paymentsToTransfers cexPayments "http://ledger1/accounts/ali" cexUuids).getD
      []).length = cexPayments.length + 1 ∧
    (∀ (j : Nat) (tj : Transfer) (L : String),
      ((paymentsToTransfers cexPayments "http://ledger1/accounts/ali" cexUuids).getD
        [])[j]? = some tj → tj.ledger = some L →
      tj.id = some (L ++ "/transfers/" ++ encodeURIComponent (cexUuids j))) ∧
    (∀ (j k : Nat) (tj tk : Transfer),
      ((paymentsToTransfers cexPayments "http://ledger1/accounts/ali" cexUuids).getD
        [])[j]? = some tj →
      ((paymentsToTransfers cexPayments "http://ledger1/accounts/ali" cexUuids).getD
        [])[k]? = some tk → j ≠ k → tj.id ≠ tk.id) :=
  C5_length_id_unique
    (by decide : paymentsToTransfers cexPayments "http://ledger1/accounts/ali" cexUuids =
      some ((paymentsToTransfers cexPayments "http://ledger1/accounts/ali" cexUuids).getD []))
    (by decide)
    (fun j k _ _ hne => cexUuids_inj j k hne)
    (fun j _ => cexUuids_shaped j)

/-! ### Claim C8: no quote validation in the chain builder -/

/-- C8 counterexample: a hop whose source transfer is missing its ledger uri
is a hop missing a required field, yet the builder raises no error at all:
it returns a chain whose first transfer's id renders the missing ledger as
the string "undefined". -/
theorem C8_counterexample :
    (cex8Payments[0]?.bind (fun p => p.source_transfers.head?)).map
      Transfer.ledger = some none ∧
    (paymentsToTransfers cex8Payments "http://ledger1/accounts/ali" cexUuids).isSome
      = true ∧
    ((paymentsToTransfers cex8Payments "http://ledger1/accounts/ali" cexUuids).bind
      (fun ts => ts[0]?)).bind Transfer.id = some "undefined/transfers/a" := by
  decide

/-- C8 (amended): `paymentsToTransfers` performs no quote validation and has
no MalformedQuoteError: a hop missing its ledger uri still produces a chain,
the missing uri rendered as the string "undefined" inside the generated id
(hops missing their transfer or debit entries surface as a generic
TypeError, modelled as `none`, not as a distinguished quote error). -/
theorem C8_no_quote_validation {payments : List Payment} {sourceAccount : String}
    {uuids : Nat → String} {ts : List Transfer}
    (h : paymentsToTransfers payments sourceAccount uuids = some ts) :
    ∀ (j : Nat) (tj : Transfer), ts[j]? = some tj → tj.ledger = none →
      tj.id = some ("undefined/transfers/" ++ encodeURIComponent (uuids j)) := by
  intro j tj hj hnone
  have hid := paymentsToTransfers_id h j tj hj
  rw [hnone] at hid
  exact hid

theorem C8_no_quote_validation_witness :
    ((((paymentsToTransfers cex8Payments "http://ledger1/accounts/ali" cexUuids).getD
      [])[0]?).getD emptyTransfer).id =
      some ("undefined/transfers/" ++ encodeURIComponent (cexUuids 0)) :=
  C8_no_quote_validation
    (by decide : paymentsToTransfers cex8Payments "http://ledger1/accounts/ali" cexUuids =
      some ((paymentsToTransfers cex8Payments "http://ledger1/accounts/ali" cexUuids).getD []))
    0
    ((((paymentsToTransfers cex8Payments "http://ledger1/accounts/ali" cexUuids).getD
      [])[0]?).getD emptyTransfer)
    (by decide) (by decide)

/-! ### Representation lemmas for the escrow configurator -/

theorem setupTransfer_atomic {params : SetupParams} {isFinal : Bool}
    {t t2 : Transfer} (hA : params.isAtomic = true)
    (h : setupTransfer params isFinal t = some t2) :
    ∃ ai, t.additional_info = some ai ∧
      t2 = { t with
        execution_condition := some params.executionCondition,
        cancellation_condition := some params.cancellationCondition,
        additional_info := some { ai with cases := some [params.caseID] },
        expiry_duration := none } := by
  unfold setupTransfer at h
  rw [hA] at h
  simp only [if_true] at h
  split at h
  · exact absurd h (by simp)
  case _ ai hai => exact ⟨ai, hai, (Option.some.inj h).symm⟩

theorem setupTransfer_nonatomic {params : SetupParams} {isFinal : Bool}
    {t t2 : Transfer} (hA : params.isAtomic = false)
    (h : setupTransfer params isFinal t = some t2) :
    ∃ d, t.expiry_duration = some d ∧
      t2 = { t with
        expires_at := some (params.now + d * 1000),
        execution_condition :=
          if isFinal then t.execution_condition else some params.executionCondition,
        expiry_duration := none } := by
  unfold setupTransfer at h
  rw [hA] at h
  simp only [Bool.false_eq_true, if_false] at h
  split at h
  · exact absurd h (by simp)
  case _ e he =>
    unfold transferExpiresAt at he
    cases hd : t.expiry_duration with
    | none => rw [hd] at he; exact absurd he (by simp)
    | some d =>
      rw [hd] at he
      have he2 := Option.some.inj he
      refine ⟨d, rfl, ?_⟩
      rw [← Option.some.inj h, ← he2]

theorem authorizeFirstDebit_spec {ts0 ts : List Transfer}
    (h : authorizeFirstDebit ts0 = some ts) :
    ∃ t0 m ms rest, ts0 = t0 :: rest ∧ t0.debits = m :: ms ∧
      ts = { t0 with debits := { m with authorized := some true } :: ms } :: rest := by
  cases ts0 with
  | nil => exact absurd h (by simp [authorizeFirstDebit])
  | cons t0 rest =>
    cases hdeb : t0.debits with
    | nil =>
      simp only [authorizeFirstDebit] at h
      rw [hdeb] at h
      exact absurd h (by simp)
    | cons m ms =>
      simp only [authorizeFirstDebit] at h
      rw [hdeb] at h
      exact ⟨t0, m, ms, rest, rfl, hdeb, (Option.some.inj h).symm⟩

theorem setupTransfers_getElem {transfers : List Transfer} {params : SetupParams}
    {ts : List Transfer} (h : setupTransfers transfers params = some ts) :
    ts.length = transfers.length ∧
    ∀ (j : Nat) (t2 : Transfer), ts[j]? = some t2 →
      ∃ (t1 t1s : Transfer), transfers[j]? = some t1 ∧
        setupTransfer params (j == transfers.length - 1) t1 = some t1s ∧
        (t2 = t1s ∨ (j = 0 ∧ ∃ m ms, t1s.debits = m :: ms ∧
          t2 = { t1s with debits := { m with authorized := some true } :: ms })) := by
  unfold setupTransfers at h
  split at h
  · exact absurd h (by simp)
  case _ ts0 hm =>
    obtain ⟨t0, m, ms, rest, hts0, hdeb, hts⟩ := authorizeFirstDebit_spec h
    subst hts0
    have hlen0 := mapIdxOpt_length hm
    constructor
    · rw [hts]; simpa using hlen0
    · intro j t2 hj
      have hpos : 0 < transfers.length := by rw [← hlen0]; simp
      cases j with
      | zero =>
        obtain ⟨a, b, ha, hb, hf⟩ := mapIdxOpt_getElem hm 0 hpos
        simp only [List.getElem?_cons_zero, Option.some.injEq] at hb
        rw [hts] at hj
        simp only [List.getElem?_cons_zero, Option.some.injEq] at hj
        refine ⟨a, t0, ha, ?_, Or.inr ⟨rfl, m, ms, hdeb, hj.symm⟩⟩
        rw [← hb] at hf
        simpa using hf
      | succ j =>
        rw [hts] at hj
        simp only [List.getElem?_cons_succ] at hj
        have hjlt : j + 1 < (t0 :: rest).length := by
          have : j < rest.length := (List.getElem?_eq_some_iff.mp hj).1
          simp
          omega
        obtain ⟨a, b, ha, hb, hf⟩ := mapIdxOpt_getElem hm (j + 1) (by omega)
        simp only [List.getElem?_cons_succ] at hb
        rw [hj] at hb
        refine ⟨a, t2, ha, ?_, Or.inl rfl⟩
        rw [← Option.some.inj hb] at hf
        simpa using hf

theorem mem_of_getElem?_some {α : Type _} {l : List α} {j : Nat} {t : α}
    (h : l[j]? = some t) : t ∈ l := by
  obtain ⟨hlt, he⟩ := List.getElem?_eq_some_iff.mp h
  exact he ▸ List.getElem_mem hlt

theorem noexp_of_all {l : List Transfer}
    (h : l.all (fun t => t.expires_at == none) = true) :
    ∀ (j : Nat) (t : Transfer), l[j]? = some t → t.expires_at = none := by
  intro j t hj
  have hall := List.all_eq_true.mp h t (mem_of_getElem?_some hj)
  simpa using hall

theorem lastNoCond_of {l : List Transfer} {x : Transfer} (hx : l.getLast? = some x)
    (he : x.execution_condition = none) :
    ∀ (t : Transfer), l.getLast? = some t → t.execution_condition = none := by
  intro t ht
  rw [hx] at ht
  rw [← Option.some.inj ht]
  exact he

/-! ### Claim C3: atomic escrow configuration -/

/-- C3 counterexample: an atomic-mode run over a chain whose transfer
already carried an `expires_at` value leaves that value in place — the
configured chain does carry an `expires_at` field, refuting the claim as
stated for arbitrary non-empty chains. -/
theorem C3_counterexample :
    ((setupTransfers cexPreExpiredChain cexSetupParamsAtomic).bind
      (fun ts => ts[0]?)).map Transfer.expires_at = some (some 123) ∧
    some (some 123) ≠ some (none : Option Nat) := by
  decide

/-- C3 (amended): after an atomic-mode `setupTransfers` run on any non-empty
chain, every transfer carries the provided execution condition, the provided
cancellation condition, and `additional_info.cases = [caseID]`; `expires_at`
is never set by the run, so on a chain whose transfers carried none (as
built chains do) no transfer carries one afterwards. -/
theorem C3_atomic_setup {transfers : List Transfer} {params : SetupParams}
    {ts : List Transfer} (hA : params.isAtomic = true)
    (h : setupTransfers transfers params = some ts)
    (hnoexp : ∀ (j : Nat) (t : Transfer), transfers[j]? = some t →
      t.expires_at = none) :
    ts.length = transfers.length ∧
    ∀ (j : Nat) (t : Transfer), ts[j]? = some t →
      t.execution_condition = some params.executionCondition ∧
      t.cancellation_condition = some params.cancellationCondition ∧
      (∃ ai, t.additional_info = some ai ∧ ai.cases = some [params.caseID]) ∧
      t.expires_at = none := by
  obtain ⟨hlen, hget⟩ := setupTransfers_getElem h
  refine ⟨hlen, ?_⟩
  intro j t hj
  obtain ⟨t1, t1s, ht1, hsetup, hcase⟩ := hget j t hj
  obtain ⟨ai, hai, ht1s⟩ := setupTransfer_atomic hA hsetup
  have hexp := hnoexp j t1 ht1
  cases hcase with
  | inl he =>
    subst he
    subst ht1s
    exact ⟨rfl, rfl, ⟨{ ai with cases := some [params.caseID] }, rfl, rfl⟩, hexp⟩
  | inr hr =>
    obtain ⟨-, m, ms, -, ht2⟩ := hr
    subst ht2
    subst ht1s
    exact ⟨rfl, rfl, ⟨{ ai with cases := some [params.caseID] }, rfl, rfl⟩, hexp⟩

theorem C3_atomic_setup_witness :
    ((setupTransfers cexBuiltChain cexSetupParamsAtomic).getD []).length =
      cexBuiltChain.length ∧
    ∀ (j : Nat) (t : Transfer),
      ((setupTransfers cexBuiltChain cexSetupParamsAtomic).getD [])[j]? = some t →
      t.execution_condition = some cexSetupParamsAtomic.executionCondition ∧
      t.cancellation_condition = some cexSetupParamsAtomic.cancellationCondition ∧
      (∃ ai, t.additional_info = some ai ∧
        ai.cases = some [cexSetupParamsAtomic.caseID]) ∧
      t.expires_at = none :=
  C3_atomic_setup (by decide)
    (by decide : setupTransfers cexBuiltChain cexSetupParamsAtomic =
      some ((setupTransfers cexBuiltChain cexSetupParamsAtomic).getD []))
    (noexp_of_all (by decide))

/-! ### Claim C4: non-atomic escrow configuration -/

/-- C4 counterexample: a non-atomic run over a one-transfer chain whose only
(final) transfer already carried an execution condition leaves it in place —
the last transfer of the configured chain does carry the provided execution
condition, refuting the claim as stated for arbitrary non-empty chains. -/
theorem C4_counterexample :
    cexPreCondChain.length = 1 ∧
    ((setupTransfers cexPreCondChain cexSetupParamsTimed).bind
      (fun ts => ts[0]?)).map Transfer.execution_condition = some (some "ec") ∧
    some (some "ec") ≠ some (none : Option Condition) := by
  decide

/-- C4 (amended): after a non-atomic `setupTransfers` run, every transfer's
`expires_at` is the shared `now` plus that transfer's own `expiry_duration`
in seconds (scaled to the millisecond timestamp that is rendered as the ISO
string), the `expiry_duration` field is removed from every transfer, every
transfer but the last gets the provided execution condition, and the last
transfer's execution condition is left unchanged — so it is absent whenever
the input chain's final transfer carried none (as built chains do). -/
theorem C4_nonatomic_setup {transfers : List Transfer} {params : SetupParams}
    {ts : List Transfer} (hA : params.isAtomic = false)
    (h : setupTransfers transfers params = some ts)
    (hfin : ∀ (t : Transfer), transfers.getLast? = some t →
      t.execution_condition = none) :
    ts.length = transfers.length ∧
    ∀ (j : Nat) (t2 : Transfer), ts[j]? = some t2 →
      (∃ (t1 : Transfer) (d : Nat), transfers[j]? = some t1 ∧
        t1.expiry_duration = some d ∧
        t2.expires_at = some (params.now + d * 1000)) ∧
      t2.expiry_duration = none ∧
      (j + 1 < transfers.length →
        t2.execution_condition = some params.executionCondition) ∧
      (j + 1 = transfers.length → t2.execution_condition = none) := by
  obtain ⟨hlen, hget⟩ := setupTransfers_getElem h
  refine ⟨hlen, ?_⟩
  intro j t2 hj
  obtain ⟨t1, t1s, ht1, hsetup, hcase⟩ := hget j t2 hj
  obtain ⟨d, hd, ht1s⟩ := setupTransfer_nonatomic hA hsetup
  have hjts : j < ts.length := (List.getElem?_eq_some_iff.mp hj).1
  have hjlt : j < transfers.length := by omega
  have hfields : t2.expires_at = t1s.expires_at ∧
      t2.expiry_duration = t1s.expiry_duration ∧
      t2.execution_condition = t1s.execution_condition := by
    cases hcase with
    | inl he => subst he; exact ⟨rfl, rfl, rfl⟩
    | inr hr =>
      obtain ⟨-, m, ms, -, ht2⟩ := hr
      subst ht2
      exact ⟨rfl, rfl, rfl⟩
  obtain ⟨hf1, hf2, hf3⟩ := hfields
  refine ⟨⟨t1, d, ht1, hd, ?_⟩, ?_, ?_, ?_⟩
  · rw [hf1, ht1s]
  · rw [hf2, ht1s]
  · intro hlt
    have hbne : ¬((j == transfers.length - 1) = true) := by
      simp only [beq_iff_eq]
      omega
    rw [hf3, ht1s, if_neg hbne]
  · intro heq
    have hbeq : (j == transfers.length - 1) = true := by
      simp only [beq_iff_eq]
      omega
    have hlast : transfers.getLast? = some t1 := by
      rw [List.getLast?_eq_getElem? transfers]
      have hji : j = transfers.length - 1 := by omega
      rw [← hji]
      exact ht1
    rw [hf3, ht1s, if_pos hbeq]
    exact hfin t1 hlast

theorem C4_nonatomic_setup_witness :
    ((setupTransfers cexBuiltChain cexSetupParamsTimed).getD []).length =
      cexBuiltChain.length ∧
    ∀ (j : Nat) (t2 : Transfer),
      ((setupTransfers cexBuiltChain cexSetupParamsTimed).getD [])[j]? = some t2 →
      (∃ (t1 : Transfer) (d : Nat), cexBuiltChain[j]? = some t1 ∧
        t1.expiry_duration = some d ∧
        t2.expires_at = some (cexSetupParamsTimed.now + d * 1000)) ∧
      t2.expiry_duration = none ∧
      (j + 1 < cexBuiltChain.length →
        t2.execution_condition = some cexSetupParamsTimed.executionCondition) ∧
      (j + 1 = cexBuiltChain.length → t2.execution_condition = none) :=
  C4_nonatomic_setup (by decide)
    (by decide : setupTransfers cexBuiltChain cexSetupParamsTimed =
      some ((setupTransfers cexBuiltChain cexSetupParamsTimed).getD []))
    (lastNoCond_of
      (by decide : cexBuiltChain.getLast? =
        some ((cexBuiltChain.getLast?).getD cexDestTransfer))
      (by decide))

/-! ### Claim C6: the transfer proposer -/

theorem postTransfersLoop_ok {respond : Nat → TransferResponse} :
    ∀ (rest : List Transfer) (i : Nat),
      (∀ k, k < rest.length → (respond (i + k)).status < 400) →
      postTransfersLoop respond i rest =
        (rest.map (fun t => postTransferCall t none),
         stampStates respond i rest, none) := by
  intro rest
  induction rest with
  | nil => intro i _; rfl
  | cons t rest ih =>
    intro i hok
    have h0 : (respond i).status < 400 := by
      have := hok 0 (by simp)
      simpa using this
    simp only [postTransfersLoop]
    split
    case _ e he =>
      exfalso
      unfold postTransferResult at he
      rw [if_neg (by omega)] at he
      exact absurd he (by simp)
    case _ st hst =>
      unfold postTransferResult at hst
      rw [if_neg (by omega)] at hst
      have hst2 := Except.ok.inj hst
      rw [ih (i + 1) (fun k hk => by
        have hk2 := hok (k + 1) (by simp; omega)
        have harith : i + (k + 1) = i + 1 + k := by omega
        rw [harith] at hk2
        exact hk2)]
      simp only [stampStates, List.map_cons]
      rw [← hst2]

theorem postTransfersLoop_fail {respond : Nat → TransferResponse} :
    ∀ (rest : List Transfer) (i j : Nat), j < rest.length →
      (∀ k, k < j → (respond (i + k)).status < 400) →
      400 ≤ (respond (i + j)).status →
      postTransfersLoop respond i rest =
        ((rest.take (j + 1)).map (fun t => postTransferCall t none),
         stampStates respond i (rest.take j) ++ rest.drop j,
         some (SendErr.remote (respond (i + j)).status (respond (i + j)).body)) := by
  intro rest
  induction rest with
  | nil => intro i j hj _ _; simp at hj
  | cons t rest ih =>
    intro i j hj hpre hfail
    cases j with
    | zero =>
      have h0 : 400 ≤ (respond i).status := by simpa using hfail
      simp only [postTransfersLoop]
      split
      case _ e he =>
        unfold postTransferResult at he
        rw [if_pos h0] at he
        have he2 := Except.error.inj he
        subst he2
        rfl
      case _ st hst =>
        exfalso
        unfold postTransferResult at hst
        rw [if_pos h0] at hst
        exact absurd hst (by simp)
    | succ j =>
      have h0 : (respond i).status < 400 := by
        have := hpre 0 (by omega)
        simpa using this
      simp only [postTransfersLoop]
      split
      case _ e he =>
        exfalso
        unfold postTransferResult at he
        rw [if_neg (by omega)] at he
        exact absurd he (by simp)
      case _ st hst =>
        unfold postTransferResult at hst
        rw [if_neg (by omega)] at hst
        have hst2 := Except.ok.inj hst
        rw [ih (i + 1) j (by simpa using hj) (fun k hk => by
            have hk2 := hpre (k + 1) (by omega)
            have harith : i + (k + 1) = i + 1 + k := by omega
            rw [harith] at hk2
            exact hk2)
          (by
            have harith : i + (j + 1) = i + 1 + j := by omega
            rw [harith] at hfail
            exact hfail)]
        simp only [List.take_succ_cons, List.drop_succ_cons, List.map_cons,
          stampStates, List.cons_append]
        rw [← hst2]
        have harith : i + 1 + j = i + (j + 1) := by omega
        rw [harith]

/-- C6 counterexample: with a ledger answering status 300 (a non-2xx
response), the proposer raises no error at all: both transfers are
submitted, the first with basic auth, and the reported state is stored —
refuting that any non-2xx response fails with a RemoteError. -/
theorem C6_counterexample :
    ((postTransfers cexProposalChain "alice" "pw" cex6Respond).map
      (fun r => (r.1, r.2.1.map Transfer.state, r.2.2))) =
      some ([NetCall.putTransfer "http://ledger1/transfers/aa"
              (some ("alice", "pw")),
             NetCall.putTransfer "http://ledger2/transfers/bb" none],
            [some "proposed", some "proposed"], (none : Option SendErr)) ∧
    ¬(200 ≤ (300 : Nat) ∧ (300 : Nat) ≤ 299) := by
  decide

/-- C6 (amended): the proposer submits the transfers strictly in chain
order, the first with basic authentication from the source credentials and
the rest unauthenticated; on success (every status < 400) every transfer
stores the ledger-reported state and no error is raised; the first response
with status >= 400 (not: any non-2xx response) stops the run with a
RemoteError carrying that status and body, the transfers before it keeping
their stored states and the rest left untouched — no rollback. -/
theorem C6_proposer {t0 : Transfer} {rest : List Transfer}
    (su sp : String) (respond : Nat → TransferResponse) :
    ((∀ i, i < (t0 :: rest).length → (respond i).status < 400) →
      postTransfers (t0 :: rest) su sp respond =
        some (proposalCalls su sp (t0 :: rest),
          stampStates respond 0 (t0 :: rest), none)) ∧
    (∀ j, j < (t0 :: rest).length → (∀ k, k < j → (respond k).status < 400) →
      400 ≤ (respond j).status →
      postTransfers (t0 :: rest) su sp respond =
        some (proposalCalls su sp ((t0 :: rest).take (j + 1)),
          stampStates respond 0 ((t0 :: rest).take j) ++ (t0 :: rest).drop j,
          some (SendErr.remote (respond j).status (respond j).body))) := by
  constructor
  · intro hok
    have h0 : (respond 0).status < 400 := hok 0 (by simp)
    simp only [postTransfers]
    split
    case _ e he =>
      exfalso
      unfold postTransferResult at he
      rw [if_neg (by omega)] at he
      exact absurd he (by simp)
    case _ st hst =>
      unfold postTransferResult at hst
      rw [if_neg (by omega)] at hst
      have hst2 := Except.ok.inj hst
      rw [postTransfersLoop_ok rest 1 (fun k hk => by
        have hk2 := hok (k + 1) (by simp; omega)
        have harith : k + 1 = 1 + k := by omega
        rw [harith] at hk2
        exact hk2)]
      simp only [proposalCalls, stampStates]
      rw [← hst2]
  · intro j hj hpre hfail
    cases j with
    | zero =>
      simp only [postTransfers]
      split
      case _ e he =>
        unfold postTransferResult at he
        rw [if_pos hfail] at he
        have he2 := Except.error.inj he
        subst he2
        rfl
      case _ st hst =>
        exfalso
        unfold postTransferResult at hst
        rw [if_pos hfail] at hst
        exact absurd hst (by simp)
    | succ j =>
      have h0 : (respond 0).status < 400 := hpre 0 (by omega)
      simp only [postTransfers]
      split
      case _ e he =>
        exfalso
        unfold postTransferResult at he
        rw [if_neg (by omega)] at he
        exact absurd he (by simp)
      case _ st hst =>
        unfold postTransferResult at hst
        rw [if_neg (by omega)] at hst
        have hst2 := Except.ok.inj hst
        rw [postTransfersLoop_fail rest 1 j (by simpa using hj) (fun k hk => by
            have hk2 := hpre (k + 1) (by omega)
            have harith : k + 1 = 1 + k := by omega
            rw [harith] at hk2
            exact hk2)
          (by
            have harith : j + 1 = 1 + j := by omega
            rw [harith] at hfail
            exact hfail)]
        simp only [List.take_succ_cons, List.drop_succ_cons, proposalCalls,
          stampStates, List.map_cons, List.cons_append]
        rw [← hst2]
        have harith : (1 : Nat) + j = j + 1 := by omega
        rw [harith]

theorem C6_proposer_witness :
    postTransfers cexProposalChain "alice" "pw" cexOkTransferRespond =
      some (proposalCalls "alice" "pw" cexProposalChain,
        stampStates cexOkTransferRespond 0 cexProposalChain, none) :=
  (C6_proposer "alice" "pw" cexOkTransferRespond).1
    (fun i hi => (by decide : (201 : Nat) < 400))

/-! ### Claim C7: the payment driver -/

theorem getD_set_self {l : List Transfer} {i : Nat} {a : Transfer}
    (h : i < l.length) : (l.set i a).getD i emptyTransfer = a := by
  rw [List.getD_eq_getElem?_getD, List.getElem?_set_self']
  simp [List.getElem?_eq_getElem h]

theorem getD_set_ne {l : List Transfer} {i j : Nat} {a : Transfer}
    (h : i ≠ j) : (l.set i a).getD j emptyTransfer = l.getD j emptyTransfer := by
  rw [List.getD_eq_getElem?_getD, List.getElem?_set_ne h,
    ← List.getD_eq_getElem?_getD]

theorem postPaymentsLoop_ok {respond : Nat → PaymentResponse} :
    ∀ (rest : List Payment) (i : Nat) (ts : List Transfer),
      ts.length = i + rest.length + 1 →
      (∀ k, k < rest.length → (respond (i + k)).status < 400) →
      (∀ k, k < rest.length → (respond (i + k)).destination_transfers ≠ []) →
      postPaymentsLoop respond rest i ts =
        (submittedFrom respond rest i ts,
         some (Except.ok (settledFrom respond i ts rest.length))) := by
  intro rest
  induction rest with
  | nil => intro i ts _ _ _; rfl
  | cons p rest ih =>
    intro i ts hlen hok hne
    simp only [List.length_cons] at hlen
    have hi : i < ts.length := by omega
    have hi1 : i + 1 < ts.length := by omega
    have h0 : (respond i).status < 400 := by simpa using hok 0 (by simp)
    have hne0 : (respond i).destination_transfers ≠ [] := by
      simpa using hne 0 (by simp)
    simp only [postPaymentsLoop]
    split
    case _ src dst hsrc hdst =>
      have hsrc2 : src = ts[i] := by
        rw [List.getElem?_eq_getElem hi] at hsrc
        exact (Option.some.inj hsrc).symm
      have hdst2 : dst = ts[i + 1] := by
        rw [List.getElem?_eq_getElem hi1] at hdst
        exact (Option.some.inj hdst).symm
      rw [if_neg (by omega)]
      split
      case _ newDst hh =>
        have hd : respDest respond i = newDst := by
          unfold respDest
          rw [hh]
          rfl
        rw [ih (i + 1) (ts.set (i + 1) newDst) (by simp; omega)
          (fun k hk => by
            have hk2 := hok (k + 1) (by simp; omega)
            have harith : i + (k + 1) = i + 1 + k := by omega
            rw [harith] at hk2
            exact hk2)
          (fun k hk => by
            have hk2 := hne (k + 1) (by simp; omega)
            have harith : i + (k + 1) = i + 1 + k := by omega
            rw [harith] at hk2
            exact hk2)]
        simp only [submittedFrom, settledFrom]
        rw [hd, hsrc2, hdst2,
          List.getD_eq_getElem ts emptyTransfer hi,
          List.getD_eq_getElem ts emptyTransfer hi1]
      case _ hh =>
        exact absurd (List.head?_eq_none_iff.mp hh) hne0
    case _ hcatch =>
      exact (hcatch ts[i] ts[i + 1] (List.getElem?_eq_getElem hi)
        (List.getElem?_eq_getElem hi1)).elim

theorem settledFrom_getElem? {respond : Nat → PaymentResponse} :
    ∀ (n i : Nat) (ts : List Transfer) (k : Nat),
      (settledFrom respond i ts n)[k]? =
        if i + 1 ≤ k ∧ k < i + 1 + n ∧ k < ts.length then
          some (respDest respond (k - 1))
        else ts[k]? := by
  intro n
  induction n with
  | zero => intro i ts k; rw [if_neg (by omega)]; rfl
  | succ n ih =>
    intro i ts k
    simp only [settledFrom]
    rw [ih (i + 1) (ts.set (i + 1) (respDest respond i)) k]
    simp only [List.length_set]
    by_cases hk1 : i + 2 ≤ k ∧ k < i + 2 + n ∧ k < ts.length
    · rw [if_pos hk1, if_pos (by omega)]
    · rw [if_neg hk1]
      by_cases hk2 : k = i + 1 ∧ k < ts.length
      · obtain ⟨hke, hklt⟩ := hk2
        subst hke
        rw [if_pos (by omega)]
        rw [List.getElem?_set_self']
        have harith : i + 1 - 1 = i := by omega
        rw [harith]
        simp [List.getElem?_eq_getElem hklt]
      · rw [if_neg (by omega)]
        by_cases hk3 : k = i + 1
        · have hge : ts.length ≤ k := by omega
          rw [List.getElem?_eq_none (by simpa using hge),
            List.getElem?_eq_none hge]
        · rw [List.getElem?_set_ne (by omega)]

theorem submittedFrom_getElem? {respond : Nat → PaymentResponse} :
    ∀ (rest : List Payment) (i : Nat) (ts : List Transfer) (j : Nat),
      j < rest.length → i + rest.length + 1 ≤ ts.length →
      (submittedFrom respond rest i ts)[j]? = some
        { rest.getD j emptyPayment with
            source_transfers := [if j = 0 then ts.getD i emptyTransfer
              else respDest respond (i + j - 1)],
            destination_transfers := [ts.getD (i + j + 1) emptyTransfer] } := by
  intro rest
  induction rest with
  | nil => intro i ts j hj _; simp at hj
  | cons p rest ih =>
    intro i ts j hj hlen
    simp only [List.length_cons] at hlen
    cases j with
    | zero =>
      simp only [submittedFrom, List.getElem?_cons_zero, Option.some.injEq]
      rfl
    | succ j =>
      simp only [submittedFrom, List.getElem?_cons_succ]
      rw [ih (i + 1) (ts.set (i + 1) (respDest respond i)) j
        (by simpa using hj) (by simp; omega)]
      have hdst : (ts.set (i + 1) (respDest respond i)).getD (i + 1 + j + 1)
          emptyTransfer = ts.getD (i + (j + 1) + 1) emptyTransfer := by
        rw [getD_set_ne (by omega)]
        have harith : i + 1 + j + 1 = i + (j + 1) + 1 := by omega
        rw [harith]
      by_cases hj0 : j = 0
      · subst hj0
        have hsrc : (ts.set (i + 1) (respDest respond i)).getD (i + 1)
            emptyTransfer = respDest respond i := getD_set_self (by omega)
        simp only [if_pos rfl, hsrc, hdst]
        have harith : i + 0 + 1 - 1 = i := by omega
        simp [harith]
      · have harith : i + 1 + j - 1 = i + (j + 1) - 1 := by omega
        simp only [if_neg hj0, hdst, harith]
        have hj1 : ¬(j + 1 = 0) := by omega
        simp [if_neg hj1]

/-- C7: on a chain of n+1 transfers over n quoted hops, when every response
is accepted (status < 400) and carries a destination transfer, the driver
processes hops 0..n-1 in order: the payment submitted at hop i carries as
source the chain entry at i — which for i > 0 is the ledger-returned
destination transfer of hop i-1 — and as destination the original chain
entry at i+1; slot i+1 is then replaced by the response's first destination
transfer. The returned chain keeps the original first transfer at position
0 and holds the ledger-returned destination transfers at positions 1..n. -/
theorem C7_driver {payments : List Payment} {transfers : List Transfer}
    {respond : Nat → PaymentResponse}
    (hlen : transfers.length = payments.length + 1)
    (hok : ∀ i, i < payments.length → (respond i).status < 400)
    (hne : ∀ i, i < payments.length →
      (respond i).destination_transfers ≠ []) :
    postPayments payments transfers respond =
      (submittedFrom respond payments 0 transfers,
       some (Except.ok (settledFrom respond 0 transfers payments.length))) ∧
    (settledFrom respond 0 transfers payments.length)[0]? = transfers[0]? ∧
    (∀ i, 1 ≤ i → i ≤ payments.length →
      (settledFrom respond 0 transfers payments.length)[i]? =
        some (respDest respond (i - 1))) ∧
    (∀ j, j < payments.length →
      (submittedFrom respond payments 0 transfers)[j]? = some
        { payments.getD j emptyPayment with
            source_transfers := [if j = 0 then transfers.getD 0 emptyTransfer
              else respDest respond (j - 1)],
            destination_transfers := [transfers.getD (j + 1) emptyTransfer] }) := by
  refine ⟨?_, ?_, ?_, ?_⟩
  · exact postPaymentsLoop_ok payments 0 transfers (by omega)
      (fun k hk => by simpa using hok k hk)
      (fun k hk => by simpa using hne k hk)
  · rw [settledFrom_getElem?, if_neg (by omega)]
  · intro i h1 h2
    rw [settledFrom_getElem?, if_pos (by omega)]
  · intro j hj
    have hsub := @submittedFrom_getElem? respond payments 0 transfers j hj (by omega)
    simpa using hsub

theorem C7_driver_witness :
    postPayments cex7Payments cex7Chain cex7Respond =
      (submittedFrom cex7Respond cex7Payments 0 cex7Chain,
       some (Except.ok (settledFrom cex7Respond 0 cex7Chain cex7Payments.length))) ∧
    (settledFrom cex7Respond 0 cex7Chain cex7Payments.length)[0]? = cex7Chain[0]? ∧
    (∀ i, 1 ≤ i → i ≤ cex7Payments.length →
      (settledFrom cex7Respond 0 cex7Chain cex7Payments.length)[i]? =
        some (respDest cex7Respond (i - 1))) ∧
    (∀ j, j < cex7Payments.length →
      (submittedFrom cex7Respond cex7Payments 0 cex7Chain)[j]? = some
        { cex7Payments.getD j emptyPayment with
            source_transfers := [if j = 0 then cex7Chain.getD 0 emptyTransfer
              else respDest cex7Respond (j - 1)],
            destination_transfers := [cex7Chain.getD (j + 1) emptyTransfer] }) :=
  C7_driver (by decide)
    (fun i _ => (by decide : (200 : Nat) < 400))
    (fun i _ => List.cons_ne_nil _ _)

/-! ### Claim C2: fulfillment submission to the notary -/

/-- C2: the state GET behaves as claimed — a status of 500 raises a
RemoteError carrying status and body — but a failed fulfillment PUT
completes silently: with the PUT answered by statusCode 500 the function
issues both requests and reports no error, because the source compares the
response object itself instead of its statusCode (src/index.js line 226),
and an object compared to a number is never >= 400 in JavaScript. -/
theorem C2_fulfillment_bug :
    (postFulfillmentToNotary cexFinalTransfer "http://notary/cases/c1"
        { statusCode := 500, type := "ed25519", signature := "sig",
          body := "get-failed" }
        { statusCode := 201, body := "ok" }).2 =
      some (SendErr.remote 500 "get-failed") ∧
    postFulfillmentToNotary cexFinalTransfer "http://notary/cases/c1"
        { statusCode := 200, type := "ed25519", signature := "sig",
          body := "state-ok" }
        { statusCode := 500, body := "notary-exploded" } =
      ([NetCall.getTransferState "http://ledger2/transfers/bb/state",
        NetCall.putFulfillment "http://notary/cases/c1/fulfillment"
          "ed25519" "sig"],
       none) := by
  decide

/-! ### Claim C9: missing notary public key -/

/-- C9: whenever the (normalized) parameters carry a truthy notary and no
notaryPublicKey, `executePayment` stops with the configuration error before
building the chain, and its network trace is empty — no case creation,
proposal, settlement or fulfillment request is issued. -/
theorem C9_config_error {subpayments : List Payment} {params : Params}
    {env : ExecEnv} (hnot : jsTruthy params.notary = true)
    (hpk : params.notaryPublicKey = none) :
    executePayment subpayments params env =
      some ([], Except.error
        (SendErr.config "Missing required parameter: notaryPublicKey")) := by
  have hc : (jsTruthy (setupAccountParams params).notary &&
      !(jsTruthy (setupAccountParams params).notaryPublicKey)) = true := by
    show (jsTruthy params.notary && !(jsTruthy params.notaryPublicKey)) = true
    rw [hnot, hpk]
    rfl
  simp only [executePayment]
  rw [if_pos hc]

theorem C9_config_error_witness :
    executePayment cexPayments cex9Params cexEnv =
      some ([], Except.error
        (SendErr.config "Missing required parameter: notaryPublicKey")) :=
  C9_config_error (by decide) (by decide)

/-! ### Claim C10: account parameter derivation -/

/-- C10 counterexample: a caller-supplied source account that is the empty
string is falsy in JavaScript, so `params.sourceAccount || derived` replaces
it — the caller-supplied value is not left unchanged. -/
theorem C10_counterexample :
    cex10EmptyParams.sourceAccount = some "" ∧
    (setupAccountParams cex10EmptyParams).sourceAccount ≠
      cex10EmptyParams.sourceAccount := by
  decide

/-- C10 (amended): at the public entry points, an absent — or empty, since
JavaScript `||` treats the empty string as falsy — sourceAccount is derived
as sourceLedger + "/accounts/" + the URI-encoded sourceUsername, and
likewise for destinationAccount; any non-empty caller-supplied account
value is left unchanged. -/
theorem C10_account_defaults (p : Params) :
    ((p.sourceAccount = none ∨ p.sourceAccount = some "") →
      (setupAccountParams p).sourceAccount =
        some (p.sourceLedger ++ "/accounts/" ++
          encodeURIComponent p.sourceUsername)) ∧
    (∀ s, p.sourceAccount = some s → s ≠ "" →
      (setupAccountParams p).sourceAccount = some s) ∧
    ((p.destinationAccount = none ∨ p.destinationAccount = some "") →
      (setupAccountParams p).destinationAccount =
        some (p.destinationLedger ++ "/accounts/" ++
          encodeURIComponent p.destinationUsername)) ∧
    (∀ s, p.destinationAccount = some s → s ≠ "" →
      (setupAccountParams p).destinationAccount = some s) := by
  refine ⟨?_, ?_, ?_, ?_⟩
  · rintro (ha | ha) <;>
      simp [setupAccountParams, jsOrString, jsTruthy, jsStr, ledgerToAccount, ha]
  · intro s ha hs
    simp [setupAccountParams, jsOrString, jsTruthy, jsStr, ha, hs]
  · rintro (ha | ha) <;>
      simp [setupAccountParams, jsOrString, jsTruthy, jsStr, ledgerToAccount, ha]
  · intro s ha hs
    simp [setupAccountParams, jsOrString, jsTruthy, jsStr, ha, hs]

theorem C10_account_defaults_witness :
    (setupAccountParams cex10EmptyParams).sourceAccount =
      some (cex10EmptyParams.sourceLedger ++ "/accounts/" ++
        encodeURIComponent cex10EmptyParams.sourceUsername) ∧
    (setupAccountParams cex10SuppliedParams).sourceAccount =
      some "http://ledger9/accounts/zed" :=
  ⟨(C10_account_defaults cex10EmptyParams).1 (Or.inr (by decide)),
   (C10_account_defaults cex10SuppliedParams).2.1
     "http://ledger9/accounts/zed" (by decide) (by decide)⟩

end FiveBells
